import Mathlib

/-!
Shallow embedding of the VelvetSwap frontend (TypeScript) components that the
specification talks about: the constant-product quote function and amount
encoding from `src/lib/swap-client.ts`, the handle parsing from
`src/lib/inco-account-manager.ts`, the faucet rate limiter from the faucet API
route, the account-setup fallback of `ensureUserIncoAccounts`, and the swap
orchestration of `src/hooks/useIncoSwap.ts`.

JavaScript `bigint` token amounts in these functions hold unsigned on-chain
quantities (u128 values and basis points); they are embedded as `Nat`.
On the non-negative operands occurring here, `bigint` division truncates
exactly like `Nat` floor division, `x & 0xFFFF...FF` (64 ones) is `x % 2^64`,
and `x >> 64n` is `x / 2^64`.
-/

/-- Constant-product swap quote, embedding `computeSwapQuote` from
`src/lib/swap-client.ts`.  Returns `(amountOut, feeAmount)`.  The TypeScript
signature defaults `feeBps` to `30n`. -/
def computeSwapQuote (amountIn reserveIn reserveOut : Nat) (feeBps : Nat := 30) :
    Nat × Nat :=
  if reserveIn = 0 ∨ reserveOut = 0 then (0, 0)
  else
    let feeAmount := amountIn * feeBps / 10000
    let netIn := amountIn - feeAmount
    let amountOut := reserveOut * netIn / (reserveIn + netIn)
    (amountOut, feeAmount)

/-- The fee taken off the input never exceeds the input when the fee rate is at
most 10000 basis points. -/
theorem feeAmount_le_amountIn (amountIn feeBps : Nat) (hFee : feeBps ≤ 10000) :
    amountIn * feeBps / 10000 ≤ amountIn := by
  calc amountIn * feeBps / 10000 ≤ amountIn * 10000 / 10000 :=
        Nat.div_le_div_right (Nat.mul_le_mul_left _ hFee)
    _ = amountIn := Nat.mul_div_cancel amountIn (by norm_num)

/-- Claim C1: for positive reserves and a fee rate of at most 10000 basis
points, `computeSwapQuote` returns the fee as `floor(amountIn * feeBps / 10000)`
and the output as the constant-product formula applied to the input net of fee,
with 30 as the default fee rate. -/
theorem computeSwapQuote_formula (amountIn reserveIn reserveOut feeBps : Nat)
    (hIn : 0 < reserveIn) (hOut : 0 < reserveOut) (hFee : feeBps ≤ 10000) :
    (computeSwapQuote amountIn reserveIn reserveOut feeBps).2 =
        amountIn * feeBps / 10000 ∧
    (computeSwapQuote amountIn reserveIn reserveOut feeBps).1 =
        reserveOut * (amountIn - amountIn * feeBps / 10000) /
          (reserveIn + amountIn - amountIn * feeBps / 10000) ∧
    computeSwapQuote amountIn reserveIn reserveOut =
        computeSwapQuote amountIn reserveIn reserveOut 30 := by
  have hres : ¬ (reserveIn = 0 ∨ reserveOut = 0) := by omega
  have hfee := feeAmount_le_amountIn amountIn feeBps hFee
  have hden : reserveIn + amountIn - amountIn * feeBps / 10000 =
      reserveIn + (amountIn - amountIn * feeBps / 10000) := by omega
  refine ⟨?_, ?_, rfl⟩
  · simp [computeSwapQuote, hres]
  · simp [computeSwapQuote, hres, hden]

/-- Claim C1 witness. -/
theorem computeSwapQuote_formula_witness :
    (computeSwapQuote 500 1000 2000 30).2 = 500 * 30 / 10000 ∧
    (computeSwapQuote 500 1000 2000 30).1 =
        2000 * (500 - 500 * 30 / 10000) / (1000 + 500 - 500 * 30 / 10000) ∧
    computeSwapQuote 500 1000 2000 = computeSwapQuote 500 1000 2000 30 :=
  computeSwapQuote_formula 500 1000 2000 30 (by decide) (by decide) (by decide)

/-- Claim C3: with a zero reserve on either side, the quote is zero output and
zero fee, for every input amount and every fee rate. -/
theorem computeSwapQuote_zero_reserves (amountIn feeBps reserveIn reserveOut : Nat)
    (h : reserveIn = 0 ∨ reserveOut = 0) :
    computeSwapQuote amountIn reserveIn reserveOut feeBps = (0, 0) := by
  simp [computeSwapQuote, h]

/-- Claim C3 witness. -/
theorem computeSwapQuote_zero_reserves_witness :
    computeSwapQuote 12345 0 9999 77 = (0, 0) :=
  computeSwapQuote_zero_reserves 12345 77 0 9999 (Or.inl rfl)

/-- Claim C8: the fee never exceeds the input, and the quoted output is
strictly below the output reserve, so a quoted swap cannot drain the pool. -/
theorem computeSwapQuote_bounds (amountIn reserveIn reserveOut feeBps : Nat)
    (hIn : 0 < reserveIn) (hOut : 0 < reserveOut) (hFee : feeBps ≤ 10000) :
    (computeSwapQuote amountIn reserveIn reserveOut feeBps).2 ≤ amountIn ∧
    (computeSwapQuote amountIn reserveIn reserveOut feeBps).1 < reserveOut := by
  have hres : ¬ (reserveIn = 0 ∨ reserveOut = 0) := by omega
  constructor
  · simpa [computeSwapQuote, hres] using feeAmount_le_amountIn amountIn feeBps hFee
  · have hpos : 0 < reserveIn + (amountIn - amountIn * feeBps / 10000) := by omega
    have hlt : reserveOut * (amountIn - amountIn * feeBps / 10000) <
        reserveOut * (reserveIn + (amountIn - amountIn * feeBps / 10000)) := by
      have : 0 < reserveOut * reserveIn := Nat.mul_pos hOut hIn
      nlinarith [Nat.mul_le_mul_left reserveOut
        (Nat.le_add_left (amountIn - amountIn * feeBps / 10000) reserveIn)]
    simp only [computeSwapQuote, hres, if_false]
    exact (Nat.div_lt_iff_lt_mul hpos).mpr (by nlinarith [hlt])

/-- Claim C8 witness. -/
theorem computeSwapQuote_bounds_witness :
    (computeSwapQuote 400 7 5 10000).2 ≤ 400 ∧
    (computeSwapQuote 400 7 5 10000).1 < 5 :=
  computeSwapQuote_bounds 400 7 5 10000 (by decide) (by decide) (by decide)

/-- The net input after the basis-point fee is monotone in the input amount
when the fee rate is at most 10000 basis points. -/
theorem netIn_mono (feeBps a1 a2 : Nat) (hFee : feeBps ≤ 10000) (h : a1 ≤ a2) :
    a1 - a1 * feeBps / 10000 ≤ a2 - a2 * feeBps / 10000 := by
  have h1 : a1 * feeBps ≤ a2 * feeBps := Nat.mul_le_mul_right _ h
  have h2 : a2 * feeBps ≤ a1 * feeBps + (a2 - a1) * 10000 := by
    have hsplit : a2 * feeBps = a1 * feeBps + (a2 - a1) * feeBps := by
      rw [← Nat.add_mul]; congr 1; omega
    have : (a2 - a1) * feeBps ≤ (a2 - a1) * 10000 := Nat.mul_le_mul_left _ hFee
    omega
  omega

/-- The constant-product output is monotone in the net input. -/
theorem cpOut_mono (reserveIn reserveOut n1 n2 : Nat) (hIn : 0 < reserveIn)
    (h : n1 ≤ n2) :
    reserveOut * n1 / (reserveIn + n1) ≤ reserveOut * n2 / (reserveIn + n2) := by
  have hd1 : 0 < reserveIn + n1 := by omega
  have hd2 : 0 < reserveIn + n2 := by omega
  rw [Nat.le_div_iff_mul_le hd2]
  apply Nat.le_of_mul_le_mul_right _ hd1
  have key : reserveOut * n1 * (reserveIn + n2) ≤ reserveOut * n2 * (reserveIn + n1) := by
    nlinarith [Nat.mul_le_mul_left (reserveOut * reserveIn) h]
  calc reserveOut * n1 / (reserveIn + n1) * (reserveIn + n2) * (reserveIn + n1)
      = reserveOut * n1 / (reserveIn + n1) * (reserveIn + n1) * (reserveIn + n2) := by ring
    _ ≤ reserveOut * n1 * (reserveIn + n2) :=
        Nat.mul_le_mul_right _ (Nat.div_mul_le_self _ _)
    _ ≤ reserveOut * n2 * (reserveIn + n1) := key

/-- Claim C2 counterexample: strict monotonicity fails.  With reserves
(10, 1) and the default 30 bps fee, inputs 1 and 2 both quote output 0, so a
strictly larger input does not always give a strictly larger output. -/
theorem computeSwapQuote_strict_counterexample :
    0 < 10 ∧ 0 < 1 ∧ (30 : Nat) ≤ 10000 ∧ 1 < 2 ∧
    ¬ ((computeSwapQuote 1 10 1 30).1 < (computeSwapQuote 2 10 1 30).1) := by
  decide

/-- Claim C2 (amended): for fixed positive reserves and a fee rate of at most
10000 basis points, the quoted output is weakly monotone in the input amount. -/
theorem computeSwapQuote_mono (reserveIn reserveOut feeBps a1 a2 : Nat)
    (hIn : 0 < reserveIn) (hOut : 0 < reserveOut) (hFee : feeBps ≤ 10000)
    (h : a1 ≤ a2) :
    (computeSwapQuote a1 reserveIn reserveOut feeBps).1 ≤
      (computeSwapQuote a2 reserveIn reserveOut feeBps).1 := by
  have hres : ¬ (reserveIn = 0 ∨ reserveOut = 0) := by omega
  simp only [computeSwapQuote, hres, if_false]
  exact cpOut_mono reserveIn reserveOut _ _ hIn (netIn_mono feeBps a1 a2 hFee h)

/-- Claim C2 witness. -/
theorem computeSwapQuote_mono_witness :
    (computeSwapQuote 100 1000 2000 30).1 ≤ (computeSwapQuote 250 1000 2000 30).1 :=
  computeSwapQuote_mono 1000 2000 30 100 250 (by decide) (by decide) (by decide)
    (by decide)

/-- Little-endian byte encoding: `leBytesOf k v` is the `k`-byte little-endian
encoding of `v`; `leBytesOf 8` embeds `Buffer.writeBigUInt64LE` (whose argument
is always below `2 ^ 64` at the call sites modelled here). -/
def leBytesOf : Nat → Nat → List Nat
  | 0, _ => []
  | k + 1, v => v % 256 :: leBytesOf k (v / 256)

/-- The value of a byte list read as a little-endian unsigned integer. -/
def leBytesValue (bytes : List Nat) : Nat :=
  bytes.foldr (fun b acc => acc * 256 + b) 0

/-- Embedding of `encryptAmount` from `src/lib/swap-client.ts`: a 16-byte
buffer holding `lo = amount & 0xFFFFFFFFFFFFFFFF` little-endian at offset 0 and
`hi = (amount >> 64n) & 0xFFFFFFFFFFFFFFFF` little-endian at offset 8. -/
def encryptAmount (amount : Nat) : List Nat :=
  let lo := amount &&& (2 ^ 64 - 1)
  let hi := (amount >>> 64) &&& (2 ^ 64 - 1)
  leBytesOf 8 lo ++ leBytesOf 8 hi

theorem leBytesOf_length (k : Nat) : ∀ v, (leBytesOf k v).length = k := by
  induction k with
  | zero => intro v; rfl
  | succ k ih => intro v; simp [leBytesOf, ih]

theorem mod_mul_split (A B v : Nat) :
    v % (A * B) = A * (v / A % B) + v % A := by
  have h1 : v % (A * B) / A = v / A % B := Nat.mod_mul_right_div_self v A B
  have h2 : v % (A * B) % A = v % A := Nat.mod_mod_of_dvd v ⟨B, rfl⟩
  conv_lhs => rw [← Nat.div_add_mod (v % (A * B)) A]
  rw [h1, h2]

theorem leBytesValue_leBytesOf (k : Nat) : ∀ v,
    leBytesValue (leBytesOf k v) = v % 256 ^ k := by
  induction k with
  | zero => intro v; simp [leBytesOf, leBytesValue, Nat.mod_one]
  | succ k ih =>
    intro v
    have hsplit := mod_mul_split 256 (256 ^ k) v
    simp only [leBytesOf, leBytesValue, List.foldr_cons] at *
    rw [ih (v / 256)]
    rw [pow_succ, mul_comm (256 ^ k) 256, hsplit]
    ring

theorem leBytesValue_append (l1 l2 : List Nat) :
    leBytesValue (l1 ++ l2) =
      leBytesValue l1 + 256 ^ l1.length * leBytesValue l2 := by
  induction l1 with
  | nil => simp [leBytesValue]
  | cons b l ih =>
    simp only [leBytesValue, List.foldr_cons, List.cons_append, List.length_cons] at *
    rw [ih]
    ring

theorem leBytesValue_lt (l : List Nat) (h : ∀ b ∈ l, b < 256) :
    leBytesValue l < 256 ^ l.length := by
  induction l with
  | nil => simp [leBytesValue]
  | cons b t ih =>
    have hb : b < 256 := h b (List.mem_cons_self b t)
    have ht : leBytesValue t < 256 ^ t.length := ih fun x hx => h x (List.mem_cons_of_mem b hx)
    simp only [leBytesValue, List.foldr_cons, List.length_cons] at *
    calc t.foldr (fun b acc => acc * 256 + b) 0 * 256 + b
        ≤ (256 ^ t.length - 1) * 256 + b := by
          have : t.foldr (fun b acc => acc * 256 + b) 0 ≤ 256 ^ t.length - 1 := by omega
          exact Nat.add_le_add_right (Nat.mul_le_mul_right _ this) b
      _ < 256 ^ (t.length + 1) := by
          have hpow : 1 ≤ 256 ^ t.length := Nat.one_le_pow _ _ (by norm_num)
          rw [pow_succ]
          omega

/-- Claim C9: `encryptAmount` returns exactly 16 bytes encoding the amount as a
little-endian unsigned 128-bit integer: decoding them little-endian gives
`amount % 2 ^ 128`, and for amounts below `2 ^ 128` the round trip is exact. -/
theorem encryptAmount_roundtrip (amount : Nat) :
    (encryptAmount amount).length = 16 ∧
    leBytesValue (encryptAmount amount) = amount % 2 ^ 128 ∧
    (amount < 2 ^ 128 → leBytesValue (encryptAmount amount) = amount) := by
  have hmask : ∀ n : Nat, n &&& (2 ^ 64 - 1) = n % 2 ^ 64 := fun n =>
    Nat.and_pow_two_sub_one_eq_mod n 64
  have hshift : amount >>> 64 = amount / 2 ^ 64 := Nat.shiftRight_eq_div_pow amount 64
  have hlen : (encryptAmount amount).length = 16 := by
    simp [encryptAmount, List.length_append, leBytesOf_length]
  have hval : leBytesValue (encryptAmount amount) = amount % 2 ^ 128 := by
    simp only [encryptAmount, hmask, hshift]
    rw [leBytesValue_append, leBytesValue_leBytesOf, leBytesValue_leBytesOf,
      leBytesOf_length]
    have h256 : (256 : Nat) ^ 8 = 2 ^ 64 := by norm_num
    rw [h256]
    rw [Nat.mod_mod_of_dvd _ (dvd_refl (2 ^ 64)),
      Nat.mod_mod_of_dvd _ (dvd_refl (2 ^ 64))]
    have hsplit := mod_mul_split (2 ^ 64) (2 ^ 64) amount
    have hpow : (2 : Nat) ^ 64 * 2 ^ 64 = 2 ^ 128 := by norm_num
    rw [hpow] at hsplit
    omega
  exact ⟨hlen, hval, fun hlt => by rw [hval, Nat.mod_eq_of_lt hlt]⟩

/-- Claim C9 witness. -/
theorem encryptAmount_roundtrip_witness :
    leBytesValue (encryptAmount 123456789) = 123456789 :=
  (encryptAmount_roundtrip 123456789).2.2 (by norm_num)

/-- A left shift by 64 followed by bitwise or with a value below `2 ^ 64` is
plain positional composition. -/
theorem shiftLeft_or_eq_mul_add (a b : Nat) (h : b < 2 ^ 64) :
    (a <<< 64) ||| b = a * 2 ^ 64 + b := by
  apply Nat.eq_of_testBit_eq
  intro j
  rw [Nat.testBit_lor, Nat.testBit_shiftLeft, Nat.mul_comm,
    Nat.testBit_mul_pow_two_add a h]
  by_cases hj : j < 64
  · simp [hj, Nat.not_le_of_lt hj]
  · have hb : b.testBit j = false := Nat.testBit_lt_two_pow
      (lt_of_lt_of_le h (Nat.pow_le_pow_right (by norm_num) (Nat.le_of_not_lt hj)))
    simp [hj, Nat.le_of_not_lt hj, hb]

/-- Result record of `parseIncoAccountData` (mint at bytes 8..40, owner at
40..72, `amountHandle` as a decimal string). -/
structure ParsedIncoAccount where
  mint : List Nat
  owner : List Nat
  amountHandle : String

/-- Embedding of `parseIncoAccountData` from `src/lib/inco-account-manager.ts`:
slice the 16 handle bytes at `AMOUNT_OFFSET = 72`, read two 64-bit words
little-endian (`readBigUInt64LE` at offsets 0 and 8), combine them as
`(hi << 64n) | lo` and render the value in decimal. -/
def parseIncoAccountData (data : List Nat) : ParsedIncoAccount :=
  let mint := (data.drop 8).take 32
  let owner := (data.drop 40).take 32
  let handleBytes := (data.drop 72).take 16
  let lo := leBytesValue (handleBytes.take 8)
  let hi := leBytesValue ((handleBytes.drop 8).take 8)
  let handleValue := (hi <<< 64) ||| lo
  { mint := mint, owner := owner, amountHandle := toString handleValue }

/-- Embedding of `extractHandleFromData` from `src/lib/inco-account-manager.ts`:
slice the 16 bytes at `HANDLE_OFFSET = 72` and fold `handle = handle * 256 +
bytes[i]` for `i` from 15 down to 0. -/
def extractHandleFromData (data : List Nat) : Nat :=
  let amountBytes := (data.drop 72).take 16
  amountBytes.reverse.foldl (fun handle b => handle * 256 + b) 0

/-- The descending fold of `extractHandleFromData` computes the little-endian
value of the byte list. -/
theorem extractFold_eq_leBytesValue (l : List Nat) :
    l.reverse.foldl (fun handle b => handle * 256 + b) 0 = leBytesValue l := by
  rw [List.foldl_reverse]
  rfl

/-- Claim C10: on account data of at least 88 bytes, the decimal handle string
of `parseIncoAccountData` agrees with the decimal rendering of
`extractHandleFromData`: the two handle-extraction implementations coincide. -/
theorem parseIncoAccountData_extractHandle_agree (data : List Nat)
    (hlen : 88 ≤ data.length) (hbytes : ∀ b ∈ data, b < 256) :
    (parseIncoAccountData data).amountHandle =
      toString (extractHandleFromData data) := by
  have hlMem : ∀ b ∈ (data.drop 72).take 16, b < 256 := fun b hb =>
    hbytes b (List.mem_of_mem_drop (List.mem_of_mem_take hb))
  have hlLen : ((data.drop 72).take 16).length = 16 := by
    simp only [List.length_take, List.length_drop]
    omega
  have hTakeLen : (((data.drop 72).take 16).take 8).length = 8 := by
    rw [List.length_take, hlLen]
    decide
  have hDropLen : (((data.drop 72).take 16).drop 8).length = 8 := by
    rw [List.length_drop, hlLen]
  have hDropTake : (((data.drop 72).take 16).drop 8).take 8 =
      ((data.drop 72).take 16).drop 8 :=
    List.take_of_length_le (le_of_eq hDropLen)
  have hloMem : ∀ b ∈ ((data.drop 72).take 16).take 8, b < 256 := fun b hb =>
    hlMem b (List.mem_of_mem_take hb)
  have hlo : leBytesValue (((data.drop 72).take 16).take 8) < 2 ^ 64 := by
    have := leBytesValue_lt _ hloMem
    rw [hTakeLen] at this
    calc leBytesValue (((data.drop 72).take 16).take 8) < 256 ^ 8 := this
      _ = 2 ^ 64 := by norm_num
  have hsplit : leBytesValue ((data.drop 72).take 16) =
      leBytesValue (((data.drop 72).take 16).take 8) +
        256 ^ 8 * leBytesValue (((data.drop 72).take 16).drop 8) := by
    conv_lhs => rw [← List.take_append_drop 8 ((data.drop 72).take 16)]
    rw [leBytesValue_append, hTakeLen]
  have hext : extractHandleFromData data = leBytesValue ((data.drop 72).take 16) := by
    simp only [extractHandleFromData]
    exact extractFold_eq_leBytesValue _
  simp only [parseIncoAccountData, hDropTake]
  congr 1
  rw [shiftLeft_or_eq_mul_add _ _ hlo, hext, hsplit]
  have h256 : (256 : Nat) ^ 8 = 2 ^ 64 := by norm_num
  rw [h256]
  ring

/-- Claim C10 witness. -/
theorem parseIncoAccountData_extractHandle_agree_witness :
    (parseIncoAccountData (List.replicate 88 1)).amountHandle =
      toString (extractHandleFromData (List.replicate 88 1)) :=
  parseIncoAccountData_extractHandle_agree (List.replicate 88 1)
    (by simp)
    (fun b hb => by
      have := List.eq_of_mem_replicate hb
      omega)

/-- Rate-limit window of the faucet route: `RATE_LIMIT_MS = 60_000`. -/
def RATE_LIMIT_MS : Int := 60000

/-- Outcome of the faucet `POST` handler up to the rate-limit gate.
`proceed` means the request passed the gate and continues into the
account-creation and minting steps; the two rejections return early. -/
inductive FaucetOutcome
  | badRequest
  | rateLimited
  | proceed
deriving DecidableEq, Repr

/-- HTTP status code of the early rejections of the faucet handler. -/
def FaucetOutcome.statusCode : FaucetOutcome → Option Nat
  | .badRequest => some 400
  | .rateLimited => some 429
  | .proceed => none

/-- Embedding of the rate-limit gate of the faucet `POST` handler: reject a
missing wallet with 400; then with `lastCall = rateLimitMap.get(wallet) || 0`,
reject with 429 when `now - lastCall < RATE_LIMIT_MS`, and otherwise record
`now` for the wallet and continue.  Timestamps are `Date.now()` millisecond
values, embedded as `Int`; the map is total over wallet strings with `none`
for absent keys. -/
def faucetPOST (rateLimitMap : String → Option Int) (wallet : Option String)
    (now : Int) : FaucetOutcome × (String → Option Int) :=
  match wallet with
  | none => (.badRequest, rateLimitMap)
  | some w =>
    let lastCall := (rateLimitMap w).getD 0
    if now - lastCall < RATE_LIMIT_MS then (.rateLimited, rateLimitMap)
    else (.proceed, fun x => if x = w then some now else rateLimitMap x)

/-- Claim C4: once the faucet accepts a wallet at time `t` (recording `t`), a
request from the same wallet at `t2` with `t2 - t < 60000` is rejected with
HTTP 429 without reaching the account-creation or minting steps, and a request
with `t2 - t ≥ 60000` passes the rate-limit gate. -/
theorem faucetPOST_rate_limit (rateLimitMap : String → Option Int) (w : String)
    (t t2 : Int)
    (hAccept : (faucetPOST rateLimitMap (some w) t).1 = .proceed) :
    ((faucetPOST rateLimitMap (some w) t).2) w = some t ∧
    (t2 - t < 60000 →
      (faucetPOST (faucetPOST rateLimitMap (some w) t).2 (some w) t2).1 =
          .rateLimited ∧
      ((faucetPOST (faucetPOST rateLimitMap (some w) t).2 (some w) t2).1).statusCode =
          some 429 ∧
      (faucetPOST (faucetPOST rateLimitMap (some w) t).2 (some w) t2).1 ≠
          .proceed ∧
      (faucetPOST (faucetPOST rateLimitMap (some w) t).2 (some w) t2).2 =
          (faucetPOST rateLimitMap (some w) t).2) ∧
    (60000 ≤ t2 - t →
      (faucetPOST (faucetPOST rateLimitMap (some w) t).2 (some w) t2).1 =
          .proceed) := by
  simp only [faucetPOST] at hAccept ⊢
  by_cases hgate : t - (rateLimitMap w).getD 0 < RATE_LIMIT_MS
  · simp [hgate] at hAccept
  · simp only [hgate, if_false]
    refine ⟨by simp, ?_, ?_⟩
    · intro hwin
      have hlt : t2 - t < RATE_LIMIT_MS := hwin
      simp [hlt, FaucetOutcome.statusCode]
    · intro hwin
      have hge : ¬ (t2 - t < RATE_LIMIT_MS) := by
        simp only [RATE_LIMIT_MS]
        omega
      simp [hge]

/-- Claim C4 witness. -/
theorem faucetPOST_rate_limit_witness :
    ((faucetPOST (fun _ => none) (some "wallet") 60000).2) "wallet" = some 60000 ∧
    ((60000 : Int) + 100 - 60000 < 60000 →
      (faucetPOST (faucetPOST (fun _ => none) (some "wallet") 60000).2
          (some "wallet") (60000 + 100)).1 = .rateLimited ∧
      ((faucetPOST (faucetPOST (fun _ => none) (some "wallet") 60000).2
          (some "wallet") (60000 + 100)).1).statusCode = some 429 ∧
      (faucetPOST (faucetPOST (fun _ => none) (some "wallet") 60000).2
          (some "wallet") (60000 + 100)).1 ≠ .proceed ∧
      (faucetPOST (faucetPOST (fun _ => none) (some "wallet") 60000).2
          (some "wallet") (60000 + 100)).2 =
        (faucetPOST (fun _ => none) (some "wallet") 60000).2) ∧
    ((60000 : Int) ≤ 60000 + 100 - 60000 →
      (faucetPOST (faucetPOST (fun _ => none) (some "wallet") 60000).2
          (some "wallet") (60000 + 100)).1 = .proceed) :=
  faucetPOST_rate_limit (fun _ => none) "wallet" 60000 (60000 + 100)
    (by simp [faucetPOST, RATE_LIMIT_MS])

/-- Parsed JSON body returned by the faucet endpoint, as consumed by
`ensureUserIncoAccounts` (fields accessed there: `success`, `tokenA`, `tokenB`,
`mintedA`, `mintedB`). -/
structure FaucetResult where
  success : Bool
  tokenA : Option String
  tokenB : Option String
  mintedA : Bool
  mintedB : Bool
deriving DecidableEq, Repr

/-- JavaScript truthiness of an optional string (absent and empty strings are
falsy). -/
def jsTruthy : Option String → Bool
  | none => false
  | some s => !s.isEmpty

/-- Results of the external calls awaited by `ensureUserIncoAccounts`: the
faucet fetch (which can throw or return any JSON body) and the
`findUserIncoAccounts` on-chain scan used as fallback. -/
structure EnsureEnv where
  faucet : Except String FaucetResult
  findUserIncoAccounts : Except String (Option String × Option String)

/-- Embedding of `ensureUserIncoAccounts` from
`src/lib/inco-account-manager.ts`: try the faucet first; on a successful body
with both token addresses, return them with `created = mintedA || mintedB`;
otherwise (thrown fetch or unsuccessful body) fall back to
`findUserIncoAccounts`, returning the found pair with `created = false` when
both exist and throwing otherwise. -/
def ensureUserIncoAccounts (env : EnsureEnv) :
    Except String (String × String × Bool) :=
  let fallback : Except String (String × String × Bool) :=
    match env.findUserIncoAccounts with
    | .error e => .error e
    | .ok (some a, some b) => .ok (a, b, false)
    | .ok _ =>
      .error "No token accounts found and faucet is unavailable. Please try again."
  match env.faucet with
  | .error _ => fallback
  | .ok r =>
    if r.success && jsTruthy r.tokenA && jsTruthy r.tokenB then
      .ok (r.tokenA.getD "", r.tokenB.getD "", r.mintedA || r.mintedB)
    else fallback

/-- Claim C7: when the faucet call throws or returns without success,
`ensureUserIncoAccounts` falls back to `findUserIncoAccounts`: it returns the
found addresses with `created = false` when both token accounts exist, and
throws an error when they do not. -/
theorem ensureUserIncoAccounts_fallback (env : EnsureEnv)
    (oa ob : Option String)
    (hFaucet : (∃ e, env.faucet = .error e) ∨
      (∃ r, env.faucet = .ok r ∧
        (r.success && jsTruthy r.tokenA && jsTruthy r.tokenB) = false))
    (hFind : env.findUserIncoAccounts = .ok (oa, ob)) :
    (∀ a b, oa = some a → ob = some b →
      ensureUserIncoAccounts env = .ok (a, b, false)) ∧
    ((oa = none ∨ ob = none) →
      ∃ m, ensureUserIncoAccounts env = .error m) := by
  have hfb : ∀ P : Except String (String × String × Bool) → Prop,
      P (match env.findUserIncoAccounts with
          | .error e => .error e
          | .ok (some a, some b) => .ok (a, b, false)
          | .ok _ =>
            .error
              "No token accounts found and faucet is unavailable. Please try again.") →
      P (ensureUserIncoAccounts env) := by
    intro P hP
    rcases hFaucet with ⟨e, he⟩ | ⟨r, hr, hcond⟩
    · simpa [ensureUserIncoAccounts, he] using hP
    · simpa [ensureUserIncoAccounts, hr, hcond] using hP
  constructor
  · intro a b ha hb
    subst ha; subst hb
    exact hfb (fun x => x = .ok (a, b, false)) (by simp [hFind])
  · intro hnone
    refine hfb (fun x => ∃ m, x = .error m) ?_
    rw [hFind]
    rcases hnone with h | h
    · subst h
      exact ⟨_, rfl⟩
    · subst h
      rcases oa with _ | a
      · exact ⟨_, rfl⟩
      · exact ⟨_, rfl⟩

/-- Claim C7 witness. -/
theorem ensureUserIncoAccounts_fallback_witness :
    ensureUserIncoAccounts
        { faucet := .error "fetch failed",
          findUserIncoAccounts := .ok (some "acctA", some "acctB") } =
      .ok ("acctA", "acctB", false) :=
  (ensureUserIncoAccounts_fallback
      { faucet := .error "fetch failed",
        findUserIncoAccounts := .ok (some "acctA", some "acctB") }
      (some "acctA") (some "acctB")
      (Or.inl ⟨"fetch failed", rfl⟩) rfl).1 "acctA" "acctB" rfl rfl

/-- The status enumeration of `SwapState` in `src/hooks/useIncoSwap.ts`. -/
inductive SwapStatus
  | idle
  | preparing
  | confirming
  | signing
  | sending
  | success
  | error
deriving DecidableEq, Repr

/-- The `SwapState` record of `src/hooks/useIncoSwap.ts` (`status`, `message`,
optional `txSignature`, optional `error`). -/
structure SwapState where
  status : SwapStatus
  message : String
  txSignature : Option String := none
  error : Option String := none
deriving DecidableEq, Repr

/-- The `updateStatus` helper of the hook: spread the previous state, replacing
`status` and `message`. -/
def updateStatus (status : SwapStatus) (message : String) (prev : SwapState) :
    SwapState :=
  { prev with status := status, message := message }

/-- The state stored by the main catch block of `executeSwap`: a fresh record
with `message: Swap failed` and the thrown message in the `error` field. -/
def swapErrorState (e : String) : SwapState :=
  { status := .error, message := "Swap failed", error := some e }

/-- Outcomes of the external calls awaited by `executeSwap`, one field per
awaited call, in source order.  `legacyTx` tells whether `swapExactIn` returned
a legacy `Transaction` (in which case `getLatestBlockhash` is awaited too). -/
structure SwapEnv where
  walletConnected : Bool
  ensureAccounts : Except String (String × String)
  buildTx : Except String Unit
  legacyTx : Bool
  getLatestBlockhash : Except String Unit
  signTransaction : Except String Unit
  sendRawTransaction : Except String String
  confirmTransaction : Except String Unit

/-- Reserve estimates hard-coded in `executeSwap` (1000 wSOL / 100000 USDC in
base units). -/
def estimatedReserveA : Nat := 1000000000000

/-- Second hard-coded reserve estimate of `executeSwap`. -/
def estimatedReserveB : Nat := 100000000000

set_option linter.unusedVariables false in
/-- The `try` block of `executeSwap`: quote, encrypt, build, sign, send,
confirm, with the catch block producing `swapErrorState`.  Returns the returned
signature (or `none`) and the list of states successively stored by
`setSwapState`, in order.  The ciphertext bindings mirror the source; the
external transaction build consumes them. -/
def swapTryBlock (env : SwapEnv) (amountIn : Nat) (aToB : Bool)
    (s : SwapState) : Option String × List SwapState :=
  let s1 := updateStatus .confirming "Computing swap quote..." s
  let reserveIn := if aToB then estimatedReserveA else estimatedReserveB
  let reserveOut := if aToB then estimatedReserveB else estimatedReserveA
  let quote := computeSwapQuote amountIn reserveIn reserveOut
  let amountInCiphertext := encryptAmount amountIn
  let amountOutCiphertext := encryptAmount quote.1
  let feeAmountCiphertext := encryptAmount quote.2
  let s2 := updateStatus .confirming "Building transaction..." s1
  match env.buildTx with
  | .error e => (none, [s1, s2, swapErrorState e])
  | .ok _ =>
    let s3 := updateStatus .signing "Please sign the transaction..." s2
    match (if env.legacyTx then env.getLatestBlockhash else .ok ()) with
    | .error e => (none, [s1, s2, s3, swapErrorState e])
    | .ok _ =>
      match env.signTransaction with
      | .error e => (none, [s1, s2, s3, swapErrorState e])
      | .ok _ =>
        let s4 := updateStatus .sending "Sending transaction..." s3
        match env.sendRawTransaction with
        | .error e => (none, [s1, s2, s3, s4, swapErrorState e])
        | .ok signature =>
          let s5 := updateStatus .sending "Confirming transaction..." s4
          match env.confirmTransaction with
          | .error e => (none, [s1, s2, s3, s4, s5, swapErrorState e])
          | .ok _ =>
            let s6 : SwapState :=
              { status := .success, message := "Swap completed successfully!",
                txSignature := some signature }
            (some signature, [s1, s2, s3, s4, s5, s6])

/-- Embedding of `executeSwap` from `src/hooks/useIncoSwap.ts`: reject a
disconnected wallet, run account setup when the cached accounts are missing
(its own catch produces an `Account setup failed` error state), then run the
main try block. -/
def executeSwap (env : SwapEnv) (userAccounts : Option (String × String))
    (amountIn : Nat) (aToB : Bool) (s0 : SwapState) :
    Option String × List SwapState :=
  if env.walletConnected = false then
    (none, [updateStatus .error "Wallet not connected" s0])
  else
    match userAccounts with
    | some _ => swapTryBlock env amountIn aToB s0
    | none =>
      let s1 := updateStatus .preparing "Setting up Inco accounts..." s0
      match env.ensureAccounts with
      | .error e =>
        (none, [s1, updateStatus .error ("Account setup failed: " ++ e) s1])
      | .ok _ =>
        let r := swapTryBlock env amountIn aToB s1
        (r.1, s1 :: r.2)

/-- A successful run of the try block stores the five progress states followed
by the success state carrying the returned signature. -/
theorem swapTryBlock_success (env : SwapEnv) (amountIn : Nat) (aToB : Bool)
    (s : SwapState) (sig : String)
    (h : (swapTryBlock env amountIn aToB s).1 = some sig) :
    ∃ l, (swapTryBlock env amountIn aToB s).2 =
        l ++ [{ status := SwapStatus.success,
                message := "Swap completed successfully!",
                txSignature := some sig }] ∧
      l.map SwapState.status =
        [SwapStatus.confirming, SwapStatus.confirming, SwapStatus.signing,
         SwapStatus.sending, SwapStatus.sending] := by
  rcases hb : env.buildTx with e | u
  · simp [swapTryBlock, hb] at h
  rcases hg : (if env.legacyTx then env.getLatestBlockhash else Except.ok ()) with e | u2
  · simp [swapTryBlock, hb, hg] at h
  rcases hs : env.signTransaction with e | u3
  · simp [swapTryBlock, hb, hg, hs] at h
  rcases hsend : env.sendRawTransaction with e | signature
  · simp [swapTryBlock, hb, hg, hs, hsend] at h
  rcases hc : env.confirmTransaction with e | u4
  · simp [swapTryBlock, hb, hg, hs, hsend, hc] at h
  have hsig : signature = sig := by
    simpa [swapTryBlock, hb, hg, hs, hsend, hc] using h
  subst hsig
  refine ⟨[{ s with status := SwapStatus.confirming, message := "Computing swap quote..." },
           { s with status := SwapStatus.confirming, message := "Building transaction..." },
           { s with status := SwapStatus.signing, message := "Please sign the transaction..." },
           { s with status := SwapStatus.sending, message := "Sending transaction..." },
           { s with status := SwapStatus.sending, message := "Confirming transaction..." }],
    ?_, by simp⟩
  simp [swapTryBlock, updateStatus, hb, hg, hs, hsend, hc]

/-- Claim C5: when `executeSwap` returns a signature, the stored status passes
through confirming, then signing, then sending, and finally success with the
signature attached, and never enters the error status during that run. -/
theorem executeSwap_success_order (env : SwapEnv) (accs : Option (String × String))
    (amountIn : Nat) (aToB : Bool) (s0 : SwapState) (sig : String)
    (h : (executeSwap env accs amountIn aToB s0).1 = some sig) :
    List.Sublist
      [SwapStatus.confirming, SwapStatus.signing, SwapStatus.sending,
       SwapStatus.success]
      (((executeSwap env accs amountIn aToB s0).2).map SwapState.status) ∧
    SwapStatus.error ∉
      ((executeSwap env accs amountIn aToB s0).2).map SwapState.status ∧
    ((executeSwap env accs amountIn aToB s0).2).getLast? =
      some { status := SwapStatus.success,
             message := "Swap completed successfully!",
             txSignature := some sig } := by
  by_cases hwc : env.walletConnected = false
  · simp [executeSwap, hwc] at h
  rcases accs with _ | acc
  · rcases ha : env.ensureAccounts with e | ab
    · simp [executeSwap, hwc, ha] at h
    · have h2 : (swapTryBlock env amountIn aToB
          (updateStatus .preparing "Setting up Inco accounts..." s0)).1 = some sig := by
        simpa [executeSwap, hwc, ha] using h
      obtain ⟨l, hl, hmap⟩ := swapTryBlock_success env amountIn aToB _ sig h2
      have hexec : (executeSwap env none amountIn aToB s0).2 =
          updateStatus .preparing "Setting up Inco accounts..." s0 ::
            (swapTryBlock env amountIn aToB
              (updateStatus .preparing "Setting up Inco accounts..." s0)).2 := by
        simp [executeSwap, hwc, ha]
      rw [hexec, hl]
      refine ⟨?_, ?_, ?_⟩
      · simp only [List.map_cons, List.map_append, List.map_nil, hmap, updateStatus]
        decide
      · simp only [List.map_cons, List.map_append, List.map_nil, hmap, updateStatus]
        decide
      · rw [← List.cons_append]
        exact List.getLast?_concat _
  · have h2 : (swapTryBlock env amountIn aToB s0).1 = some sig := by
      simpa [executeSwap, hwc] using h
    obtain ⟨l, hl, hmap⟩ := swapTryBlock_success env amountIn aToB s0 sig h2
    have hexec : (executeSwap env (some acc) amountIn aToB s0).2 =
        (swapTryBlock env amountIn aToB s0).2 := by
      simp [executeSwap, hwc]
    rw [hexec, hl]
    refine ⟨?_, ?_, ?_⟩
    · simp only [List.map_append, List.map_cons, List.map_nil, hmap]
      decide
    · simp only [List.map_append, List.map_cons, List.map_nil, hmap]
      decide
    · exact List.getLast?_concat _

/-- Environment with every external call succeeding, for the C5 witness. -/
def swapEnvOk : SwapEnv :=
  { walletConnected := true, ensureAccounts := .ok ("acctA", "acctB"),
    buildTx := .ok (), legacyTx := true, getLatestBlockhash := .ok (),
    signTransaction := .ok (), sendRawTransaction := .ok "sig123",
    confirmTransaction := .ok () }

/-- Claim C5 witness. -/
theorem executeSwap_success_order_witness :
    List.Sublist
      [SwapStatus.confirming, SwapStatus.signing, SwapStatus.sending,
       SwapStatus.success]
      (((executeSwap swapEnvOk (some ("acctA", "acctB")) 1000 true
          { status := .idle, message := "" }).2).map SwapState.status) ∧
    SwapStatus.error ∉
      ((executeSwap swapEnvOk (some ("acctA", "acctB")) 1000 true
          { status := .idle, message := "" }).2).map SwapState.status ∧
    ((executeSwap swapEnvOk (some ("acctA", "acctB")) 1000 true
        { status := .idle, message := "" }).2).getLast? =
      some { status := SwapStatus.success,
             message := "Swap completed successfully!",
             txSignature := some "sig123" } :=
  executeSwap_success_order swapEnvOk (some ("acctA", "acctB")) 1000 true
    { status := .idle, message := "" } "sig123" rfl

/-- The message of the first awaited call inside the try block that throws,
in execution order, or `none` when every call succeeds. -/
def tryFailure (env : SwapEnv) : Option String :=
  match env.buildTx with
  | .error e => some e
  | .ok _ =>
    match (if env.legacyTx then env.getLatestBlockhash else Except.ok ()) with
    | .error e => some e
    | .ok _ =>
      match env.signTransaction with
      | .error e => some e
      | .ok _ =>
        match env.sendRawTransaction with
        | .error e => some e
        | .ok _ =>
          match env.confirmTransaction with
          | .error e => some e
          | .ok _ => none

/-- The message of the first awaited external call of `executeSwap` that
throws, counting the account setup when the cached accounts are missing. -/
def firstFailure (env : SwapEnv) (accs : Option (String × String)) :
    Option String :=
  match accs with
  | some _ => tryFailure env
  | none =>
    match env.ensureAccounts with
    | .error e => some e
    | .ok _ => tryFailure env

/-- A swap state carries an exception message when it is in its `error` field
or embedded in its `message` text. -/
def stateCarries (s : SwapState) (e : String) : Prop :=
  s.error = some e ∨ ∃ p, s.message = p ++ e

/-- A failing run of the try block returns no signature and ends in the catch
state for the thrown message. -/
theorem swapTryBlock_failure (env : SwapEnv) (amountIn : Nat) (aToB : Bool)
    (s : SwapState) (e : String) (h : tryFailure env = some e) :
    (swapTryBlock env amountIn aToB s).1 = none ∧
    ∃ l, (swapTryBlock env amountIn aToB s).2 = l ++ [swapErrorState e] := by
  rcases hb : env.buildTx with e0 | u
  · have he : e0 = e := by simpa [tryFailure, hb] using h
    subst he
    refine ⟨by simp [swapTryBlock, hb], ?_⟩
    exact ⟨[{ s with status := SwapStatus.confirming, message := "Computing swap quote..." },
            { s with status := SwapStatus.confirming, message := "Building transaction..." }],
      by simp [swapTryBlock, updateStatus, hb]⟩
  rcases hg : (if env.legacyTx then env.getLatestBlockhash else Except.ok ()) with e0 | u2
  · have he : e0 = e := by simpa [tryFailure, hb, hg] using h
    subst he
    refine ⟨by simp [swapTryBlock, hb, hg], ?_⟩
    exact ⟨[{ s with status := SwapStatus.confirming, message := "Computing swap quote..." },
            { s with status := SwapStatus.confirming, message := "Building transaction..." },
            { s with status := SwapStatus.signing, message := "Please sign the transaction..." }],
      by simp [swapTryBlock, updateStatus, hb, hg]⟩
  rcases hs : env.signTransaction with e0 | u3
  · have he : e0 = e := by simpa [tryFailure, hb, hg, hs] using h
    subst he
    refine ⟨by simp [swapTryBlock, hb, hg, hs], ?_⟩
    exact ⟨[{ s with status := SwapStatus.confirming, message := "Computing swap quote..." },
            { s with status := SwapStatus.confirming, message := "Building transaction..." },
            { s with status := SwapStatus.signing, message := "Please sign the transaction..." }],
      by simp [swapTryBlock, updateStatus, hb, hg, hs]⟩
  rcases hsend : env.sendRawTransaction with e0 | signature
  · have he : e0 = e := by simpa [tryFailure, hb, hg, hs, hsend] using h
    subst he
    refine ⟨by simp [swapTryBlock, hb, hg, hs, hsend], ?_⟩
    exact ⟨[{ s with status := SwapStatus.confirming, message := "Computing swap quote..." },
            { s with status := SwapStatus.confirming, message := "Building transaction..." },
            { s with status := SwapStatus.signing, message := "Please sign the transaction..." },
            { s with status := SwapStatus.sending, message := "Sending transaction..." }],
      by simp [swapTryBlock, updateStatus, hb, hg, hs, hsend]⟩
  rcases hc : env.confirmTransaction with e0 | u4
  · have he : e0 = e := by simpa [tryFailure, hb, hg, hs, hsend, hc] using h
    subst he
    refine ⟨by simp [swapTryBlock, hb, hg, hs, hsend, hc], ?_⟩
    exact ⟨[{ s with status := SwapStatus.confirming, message := "Computing swap quote..." },
            { s with status := SwapStatus.confirming, message := "Building transaction..." },
            { s with status := SwapStatus.signing, message := "Please sign the transaction..." },
            { s with status := SwapStatus.sending, message := "Sending transaction..." },
            { s with status := SwapStatus.sending, message := "Confirming transaction..." }],
      by simp [swapTryBlock, updateStatus, hb, hg, hs, hsend, hc]⟩
  simp [tryFailure, hb, hg, hs, hsend, hc] at h

/-- Claim C6: when an awaited external call of `executeSwap` throws (account
setup, transaction build, blockhash fetch, signing, sending or confirmation),
`executeSwap` returns `none` and the final stored state has status error and
carries the message of the triggering exception. -/
theorem executeSwap_error_state (env : SwapEnv) (accs : Option (String × String))
    (amountIn : Nat) (aToB : Bool) (s0 : SwapState) (e : String)
    (hwc : env.walletConnected = true)
    (hfail : firstFailure env accs = some e) :
    (executeSwap env accs amountIn aToB s0).1 = none ∧
    ∃ sLast, ((executeSwap env accs amountIn aToB s0).2).getLast? = some sLast ∧
      sLast.status = SwapStatus.error ∧ stateCarries sLast e := by
  have hwc2 : ¬ (env.walletConnected = false) := by simp [hwc]
  rcases accs with _ | acc
  · rcases ha : env.ensureAccounts with e0 | ab
    · have he : e0 = e := by simpa [firstFailure, ha] using hfail
      subst he
      refine ⟨by simp [executeSwap, hwc2, ha], ?_⟩
      refine ⟨updateStatus .error ("Account setup failed: " ++ e0)
          (updateStatus .preparing "Setting up Inco accounts..." s0), ?_, rfl, ?_⟩
      · simp [executeSwap, hwc2, ha]
      · exact Or.inr ⟨"Account setup failed: ", rfl⟩
    · have htry : tryFailure env = some e := by simpa [firstFailure, ha] using hfail
      obtain ⟨h1, l, hl⟩ := swapTryBlock_failure env amountIn aToB
        (updateStatus .preparing "Setting up Inco accounts..." s0) e htry
      refine ⟨by simp [executeSwap, hwc2, ha, h1], ?_⟩
      refine ⟨swapErrorState e, ?_, rfl, Or.inl rfl⟩
      have hexec : (executeSwap env none amountIn aToB s0).2 =
          updateStatus .preparing "Setting up Inco accounts..." s0 ::
            (swapTryBlock env amountIn aToB
              (updateStatus .preparing "Setting up Inco accounts..." s0)).2 := by
        simp [executeSwap, hwc2, ha]
      rw [hexec, hl, ← List.cons_append]
      exact List.getLast?_concat _
  · have htry : tryFailure env = some e := by simpa [firstFailure] using hfail
    obtain ⟨h1, l, hl⟩ := swapTryBlock_failure env amountIn aToB s0 e htry
    have hexec : (executeSwap env (some acc) amountIn aToB s0).2 =
        (swapTryBlock env amountIn aToB s0).2 := by
      simp [executeSwap, hwc2]
    refine ⟨by simp [executeSwap, hwc2, h1], ?_⟩
    refine ⟨swapErrorState e, ?_, rfl, Or.inl rfl⟩
    rw [hexec, hl]
    exact List.getLast?_concat _

/-- Environment whose transaction build throws, for the C6 witness. -/
def swapEnvFail : SwapEnv :=
  { walletConnected := true, ensureAccounts := .ok ("acctA", "acctB"),
    buildTx := .error "RPC unavailable", legacyTx := false,
    getLatestBlockhash := .ok (), signTransaction := .ok (),
    sendRawTransaction := .ok "sig123", confirmTransaction := .ok () }

/-- Claim C6 witness. -/
theorem executeSwap_error_state_witness :
    (executeSwap swapEnvFail (some ("acctA", "acctB")) 1000 true
        { status := .idle, message := "" }).1 = none ∧
    ∃ sLast, ((executeSwap swapEnvFail (some ("acctA", "acctB")) 1000 true
        { status := .idle, message := "" }).2).getLast? = some sLast ∧
      sLast.status = SwapStatus.error ∧ stateCarries sLast "RPC unavailable" :=
  executeSwap_error_state swapEnvFail (some ("acctA", "acctB")) 1000 true
    { status := .idle, message := "" } "RPC unavailable" rfl rfl
